import Mathlib

/-!
Verification of the chartmuseum storage-to-index synchronization engine
(`pkg/chartmuseum/server.go`).

The embedding below models the server's synchronization code with explicit
state passing.  Fallible Go functions become functions into `Except Err`;
the mutable fields `server.RepositoryIndex` / `server.StorageCache` become a
`ServerState` value threaded through the functions.  Every function is
additionally instrumented with a trace of observable events (lock
acquire/release, `ListObjects` calls, `GetObject` calls, publishing), and
the fan-in loop of `addIndexObjectsAsync` reports how many channel receives
it performed.  The external collaborators (storage backend, chart parser,
document serialization, the scheduler choosing the arrival order of the
concurrently dispatched tasks, logger construction) are parameters collected
in `Env`.

The `repo` and `storage` helper packages are not part of the source under
verification; their operations (`GetObjectSliceDiff`, `HasExtension`,
`Index.AddEntry` / `UpdateEntry` / `RemoveEntry`, `ChartVersionFromStorageObject`,
`NewIndex`) are modelled from the specification and marked as such in their
doc comments.
-/

namespace ChartMuseum

/-- A storage object as seen by a listing call: a path, an opaque change
marker (size/modification time), and the raw content (empty unless the
object was fetched with `GetObject`). -/
structure Object where
  path : String
  marker : Nat
  content : String
deriving DecidableEq, Repr

/-- Artifact metadata produced by parsing: chart name, version, and the
pass-through metadata fields of the published index format. -/
structure ChartVersion where
  name : String
  version : String
  meta : String
deriving DecidableEq, Repr

/-- Error taxonomy.  `invalidChartPackage` models the distinguished value
`repo.ErrorInvalidChartPackage`; `storage` models transport/storage errors;
`regenFailure` models a failure while producing the publish document. -/
inductive Err where
  | invalidChartPackage
  | storage (msg : String)
  | regenFailure (msg : String)
deriving DecidableEq, Repr

/-- Observable events emitted by the synchronization engine: storage-cache
lock acquire/release, a `ListObjects` call, a `GetObject` call for a path,
and publishing the regenerated index. -/
inductive Event where
  | lockAcquire
  | lockRelease
  | listCall
  | getCall (path : String)
  | publish
deriving DecidableEq, Repr

/-- Modelled from the spec: the published Index is a mapping keyed by
(name, version) holding metadata entries (kept here as a list of entries),
plus the base chart URL and the raw generated document
(`repo.Index` with fields `IndexFile`/`Raw`/`ChartURL`). -/
structure Index where
  entries : List ChartVersion
  raw : String
  chartURL : String
deriving DecidableEq, Repr

/-- Two chart versions denote the same index key (name, version). -/
def sameKey (a b : ChartVersion) : Bool :=
  a.name = b.name && a.version = b.version

/-- Modelled from the spec: `Index.AddEntry` is an upsert by
(name, version) that tolerates an already-present key. -/
def Index.addEntry (idx : Index) (cv : ChartVersion) : Index :=
  if idx.entries.any (fun e => sameKey cv e) then
    { idx with entries := idx.entries.map (fun e => if sameKey cv e then cv else e) }
  else
    { idx with entries := idx.entries ++ [cv] }

/-- Modelled from the spec: `Index.UpdateEntry` is behaviorally the same
upsert by (name, version) as `AddEntry`. -/
def Index.updateEntry (idx : Index) (cv : ChartVersion) : Index :=
  Index.addEntry idx cv

/-- Modelled from the spec: `Index.RemoveEntry` removes the (name, version)
key and is a no-op when the key is missing. -/
def Index.removeEntry (idx : Index) (cv : ChartVersion) : Index :=
  { idx with entries := idx.entries.filter (fun e => !(sameKey cv e)) }

/-- Modelled from the spec: `repo.NewIndex` creates an empty index carrying
the configured chart URL. -/
def newIndex (chartURL : String) : Index :=
  { entries := [], raw := "", chartURL := chartURL }

/-- The chart package file extension constant (`repo.ChartPackageFileExtension`). -/
def chartPackageFileExtension : String := "tgz"

/-- Modelled from the spec: `storage.Object.HasExtension` — whether the
object's path carries the chart-package file extension (the path's
character sequence ends with the dotted extension). -/
def Object.hasExtension (o : Object) (ext : String) : Bool :=
  List.isSuffixOf (String.append "." ext).data o.path.data

/-- The diff of two object slices (`storage.ObjectSliceDiff`). -/
structure ObjectSliceDiff where
  added : List Object
  removed : List Object
  updated : List Object
  change : Bool
deriving DecidableEq, Repr

/-- Modelled from the spec: `storage.GetObjectSliceDiff` keyed by path —
a path absent from the new listing is Removed, a path absent from the old
snapshot is Added, a shared path with a different change marker is Updated;
`change` is set when any of the three sets is nonempty. -/
def getObjectSliceDiff (olds news : List Object) : ObjectSliceDiff :=
  let removed := olds.filter (fun o => !(news.any (fun n => n.path = o.path)))
  let updated := news.filter (fun n => olds.any (fun o => o.path = n.path && o.marker ≠ n.marker))
  let added := news.filter (fun n => !(olds.any (fun o => o.path = n.path)))
  { added := added, removed := removed, updated := updated,
    change := decide (0 < added.length + removed.length + updated.length) }

/-- The external storage capability: `ListObjects` and `GetObject`. -/
structure Backend where
  listObjects : Except Err (List Object)
  getObject : String → Except Err Object

/-- The environment of external collaborators: the storage backend, the
artifact parser (`Parse` on fetched content), the path-derived identity used
when no content is available, the publish-document serialization performed
by `Index.Regenerate`, the scheduler fixing the arrival order of the results
of the concurrently dispatched Added tasks, and whether logger construction
fails. -/
structure Env where
  backend : Backend
  parse : String → Except Err ChartVersion
  fromPath : String → Except Err ChartVersion
  regen : String → List ChartVersion → Except Err String
  sched : List Object → List Object
  loggerFails : Bool

/-- Modelled from the spec: `repo.ChartVersionFromStorageObject` — with no
content, the (name, version) identity is derived from the descriptor's path
alone; with content, the external parser is applied. -/
def chartVersionFromStorageObject (env : Env) (o : Object) : Except Err ChartVersion :=
  if o.content = "" then env.fromPath o.path else env.parse o.content

/-- `Server.getObjectChartVersion`: when `load` is true, fetch the object
through the storage backend (one `GetObject` call), treat empty content as
`ErrorInvalidChartPackage`, and parse; when `load` is false, derive the
chart version from the descriptor without any storage call. -/
def getObjectChartVersion (env : Env) (o : Object) (load : Bool) :
    List Event × Except Err ChartVersion :=
  if load then
    match env.backend.getObject o.path with
    | .error e => ([Event.getCall o.path], .error e)
    | .ok o2 =>
      if o2.content = "" then
        ([Event.getCall o.path], .error Err.invalidChartPackage)
      else
        ([Event.getCall o.path], chartVersionFromStorageObject env o2)
  else
    ([], chartVersionFromStorageObject env o)

/-- `Server.checkInvalidChartPackageError`: `ErrorInvalidChartPackage` is
downgraded to a logged skip (`none`); any other error is returned. -/
def checkInvalidChartPackageError (e : Err) : Option Err :=
  if e = Err.invalidChartPackage then none else some e

/-- `Server.removeIndexObject`: resolve the object's identity without
fetching content, downgrade an invalid-package condition to a skip, and
otherwise remove the entry from the index. -/
def removeIndexObject (env : Env) (index : Index) (o : Object) :
    List Event × Except Err Index :=
  match getObjectChartVersion env o false with
  | (t, .error e) =>
    match checkInvalidChartPackageError e with
    | none => (t, .ok index)
    | some e2 => (t, .error e2)
  | (t, .ok cv) => (t, .ok (index.removeEntry cv))

/-- `Server.updateIndexObject`: resolve the object with content fetching,
downgrade an invalid-package condition to a skip, and otherwise upsert the
entry in the index. -/
def updateIndexObject (env : Env) (index : Index) (o : Object) :
    List Event × Except Err Index :=
  match getObjectChartVersion env o true with
  | (t, .error e) =>
    match checkInvalidChartPackageError e with
    | none => (t, .ok index)
    | some e2 => (t, .error e2)
  | (t, .ok cv) => (t, .ok (index.updateEntry cv))

/-- The `for _, object := range diff.Removed` loop of
`regenerateRepositoryIndex`, returning the first error if any. -/
def removeList (env : Env) (index : Index) : List Object → List Event × Except Err Index
  | [] => ([], .ok index)
  | o :: os =>
    match removeIndexObject env index o with
    | (t, .error e) => (t, .error e)
    | (t, .ok index2) =>
      match removeList env index2 os with
      | (t2, r) => (t ++ t2, r)

/-- The `for _, object := range diff.Updated` loop of
`regenerateRepositoryIndex`, returning the first error if any. -/
def updateList (env : Env) (index : Index) : List Object → List Event × Except Err Index
  | [] => ([], .ok index)
  | o :: os =>
    match updateIndexObject env index o with
    | (t, .error e) => (t, .error e)
    | (t, .ok index2) =>
      match updateList env index2 os with
      | (t2, r) => (t ++ t2, r)

/-- The outcome one dispatched Added task sends on the channel (`cvResult`):
a resolved chart version on success, `(none, none)` when the invalid-package
condition was downgraded to a skip, and `(none, some e)` on a fatal error
(the task also triggers cancellation in that case). -/
def addTaskResult (env : Env) (o : Object) : Option ChartVersion × Option Err :=
  match getObjectChartVersion env o true with
  | (_, .ok cv) => (some cv, none)
  | (_, .error e) =>
    match checkInvalidChartPackageError e with
    | none => (none, none)
    | some e2 => (none, some e2)

/-- The fan-in loop of `addIndexObjectsAsync`: receive task outcomes in
arrival order, return the first fatal error immediately, skip `nil` chart
versions, and add the rest to the index.  Returns the emitted `GetObject`
events of the consumed tasks, the number of channel receives performed, and
the result. -/
def collectLoop (env : Env) (index : Index) :
    List Object → List Event × Nat × Except Err Index
  | [] => ([], 0, .ok index)
  | o :: os =>
    match (addTaskResult env o).2 with
    | some e => ([Event.getCall o.path], 1, .error e)
    | none =>
      match (addTaskResult env o).1 with
      | none =>
        match collectLoop env index os with
        | (t, n, r) => (Event.getCall o.path :: t, n + 1, r)
      | some cv =>
        match collectLoop env (index.addEntry cv) os with
        | (t, n, r) => (Event.getCall o.path :: t, n + 1, r)

/-- `Server.addIndexObjectsAsync`: return immediately when there are no
added objects; otherwise dispatch one task per object and run the fan-in
loop over the arrival order chosen by the scheduler. -/
def addIndexObjectsAsync (env : Env) (index : Index) (objects : List Object) :
    List Event × Nat × Except Err Index :=
  if objects.length = 0 then ([], 0, .ok index)
  else collectLoop env index (env.sched objects)

/-- The server's mutable synchronization state: the published repository
index and the storage cache snapshot. -/
structure ServerState where
  repositoryIndex : Index
  storageCache : List Object
deriving DecidableEq, Repr

/-- `Server.listObjectsGetDiff`: list the store, filter to chart-package
paths, and diff the filtered listing against the storage cache. -/
def listObjectsGetDiff (env : Env) (s : ServerState) :
    List Event × Except Err (List Object × ObjectSliceDiff) :=
  match env.backend.listObjects with
  | .error e => ([Event.listCall], .error e)
  | .ok allObjects =>
    let filteredObjects := allObjects.filter
      (fun o => o.hasExtension chartPackageFileExtension)
    let diff := getObjectSliceDiff s.storageCache filteredObjects
    ([Event.listCall], .ok (filteredObjects, diff))

/-- `Server.regenerateRepositoryIndex`: under the storage cache lock
(released by `defer` on every path), list and diff, build a new index value
from a copy of the current one, apply Removed and Updated serially and Added
concurrently, regenerate the publish document, and only then swap in the new
index and record the new snapshot.  Any failure returns the error with the
state unchanged. -/
def regenerateRepositoryIndex (env : Env) (s : ServerState) :
    List Event × ServerState × Option Err :=
  match listObjectsGetDiff env s with
  | (t, .error e) =>
    (Event.lockAcquire :: (t ++ [Event.lockRelease]), s, some e)
  | (t, .ok (objects, diff)) =>
    let index : Index :=
      { entries := s.repositoryIndex.entries,
        raw := s.repositoryIndex.raw,
        chartURL := s.repositoryIndex.chartURL }
    match removeList env index diff.removed with
    | (t2, .error e) =>
      (Event.lockAcquire :: (t ++ t2 ++ [Event.lockRelease]), s, some e)
    | (t2, .ok index2) =>
      match updateList env index2 diff.updated with
      | (t3, .error e) =>
        (Event.lockAcquire :: (t ++ t2 ++ t3 ++ [Event.lockRelease]), s, some e)
      | (t3, .ok index3) =>
        match addIndexObjectsAsync env index3 diff.added with
        | (t4, _, .error e) =>
          (Event.lockAcquire :: (t ++ t2 ++ t3 ++ t4 ++ [Event.lockRelease]), s, some e)
        | (t4, _, .ok index4) =>
          match env.regen index4.chartURL index4.entries with
          | .error e =>
            (Event.lockAcquire :: (t ++ t2 ++ t3 ++ t4 ++ [Event.lockRelease]), s, some e)
          | .ok doc =>
            (Event.lockAcquire ::
               (t ++ t2 ++ t3 ++ t4 ++ [Event.publish, Event.lockRelease]),
             { repositoryIndex := { index4 with raw := doc }, storageCache := objects },
             none)

/-- `Server.syncRepositoryIndex`: compute the diff (outside the lock); on a
listing error return it; when the diff shows no change return success
immediately; otherwise run a full regeneration. -/
def syncRepositoryIndex (env : Env) (s : ServerState) :
    List Event × ServerState × Option Err :=
  match listObjectsGetDiff env s with
  | (t, .error e) => (t, s, some e)
  | (t, .ok (_, diff)) =>
    if diff.change then
      match regenerateRepositoryIndex env s with
      | (t2, s2, r) => (t ++ t2, s2, r)
    else (t, s, none)

/-- The options `NewServer` consumes that are relevant to the
synchronization engine. -/
structure ServerOptions where
  chartURL : String
deriving DecidableEq, Repr

/-- The zero value `new(Server)` restricted to the synchronization state. -/
def emptyServerState : ServerState :=
  { repositoryIndex := { entries := [], raw := "", chartURL := "" },
    storageCache := [] }

/-- The freshly constructed server state before the initial regeneration:
a new empty index carrying the configured chart URL and an empty cache. -/
def initialServerState (opts : ServerOptions) : ServerState :=
  { repositoryIndex := newIndex opts.chartURL, storageCache := [] }

/-- `NewServer`: when logger construction fails, return `new(Server)` with a
`nil` error; otherwise construct the server and return it together with the
error of the initial index regeneration. -/
def newServer (env : Env) (opts : ServerOptions) : ServerState × Option Err :=
  if env.loggerFails then (emptyServerState, none)
  else
    match regenerateRepositoryIndex env (initialServerState opts) with
    | (_, s2, r) => (s2, r)

/-! ## Helper lemmas -/

/-- A regeneration either left the state untouched or succeeded: the only
arm of `regenerateRepositoryIndex` that returns a modified state is the
final success arm. -/
theorem regen_state_eq_or_ok (env : Env) (s : ServerState) :
    (regenerateRepositoryIndex env s).2.1 = s ∨
      (regenerateRepositoryIndex env s).2.2 = none := by
  unfold regenerateRepositoryIndex
  split
  · simp
  · dsimp only
    split
    · simp
    · split
      · simp
      · split
        · simp
        · split
          · simp
          · simp

/-- A sync either left the state untouched or succeeded. -/
theorem sync_state_eq_or_ok (env : Env) (s : ServerState) :
    (syncRepositoryIndex env s).2.1 = s ∨
      (syncRepositoryIndex env s).2.2 = none := by
  unfold syncRepositoryIndex
  split
  · left; rfl
  · split
    · split
      rename_i heq
      rcases regen_state_eq_or_ok env s with h | h <;> rw [heq] at h <;> simp_all
    · left; rfl

/-! ## Witness fixtures: concrete objects and environments -/

def oA : Object := { path := "a-1.0.0.tgz", marker := 1, content := "" }

def oB : Object := { path := "b-2.0.0.tgz", marker := 2, content := "" }

def cvA : ChartVersion := { name := "a", version := "1.0.0", meta := "" }

def cvB : ChartVersion := { name := "b", version := "2.0.0", meta := "" }

/-- A backend whose listing holds two chart packages and whose `GetObject`
fails with a storage error on the first and succeeds on the second. -/
def backendW : Backend :=
  { listObjects := .ok [oA, oB],
    getObject := fun p =>
      if p = "a-1.0.0.tgz" then .error (Err.storage "boom")
      else .ok { path := p, marker := 2, content := "bcontent" } }

def envW : Env :=
  { backend := backendW,
    parse := fun c => if c = "bcontent" then .ok cvB else .error Err.invalidChartPackage,
    fromPath := fun p => if p = "a-1.0.0.tgz" then .ok cvA else .ok cvB,
    regen := fun url es => .ok (String.append url (toString es.length)),
    sched := id,
    loggerFails := false }

def sW : ServerState :=
  { repositoryIndex := { entries := [], raw := "", chartURL := "http://u" },
    storageCache := [] }

/-! ## Claims -/

/-- C1: Failure atomicity of regeneration — when `syncRepositoryIndex` or
`regenerateRepositoryIndex` returns an error (storage listing error, storage
fetch error, or failure producing the publish document, including a fatal
outcome of one of the concurrently dispatched Added tasks), the returned
state (published Index and Snapshot) is exactly the pre-call state. -/
theorem regeneration_failure_atomicity (env : Env) (s : ServerState) (e : Err) :
    ((syncRepositoryIndex env s).2.2 = some e → (syncRepositoryIndex env s).2.1 = s) ∧
    ((regenerateRepositoryIndex env s).2.2 = some e →
      (regenerateRepositoryIndex env s).2.1 = s) := by
  constructor
  · intro h
    rcases sync_state_eq_or_ok env s with h1 | h1
    · exact h1
    · rw [h] at h1; cases h1
  · intro h
    rcases regen_state_eq_or_ok env s with h1 | h1
    · exact h1
    · rw [h] at h1; cases h1

/-- Witness for C1: in a sync over two Added tasks where the first returns a
storage error and the second succeeds, the error is returned and the state
is exactly the pre-call state. -/
theorem regeneration_failure_atomicity_witness :
    (syncRepositoryIndex envW sW).2.2 = some (Err.storage "boom") ∧
    (syncRepositoryIndex envW sW).2.1 = sW :=
  ⟨by decide, (regeneration_failure_atomicity envW sW (Err.storage "boom")).1 (by decide)⟩

/-- C10: if logger construction fails, `NewServer` returns a fresh empty
Server together with a `nil` error (the construction error is swallowed);
the error `NewServer` returns is non-nil only when the initial index
regeneration fails. -/
theorem newServer_swallows_logger_error (env : Env) (opts : ServerOptions) (e : Err) :
    (env.loggerFails = true → newServer env opts = (emptyServerState, none)) ∧
    ((newServer env opts).2 = some e →
      env.loggerFails = false ∧
        (regenerateRepositoryIndex env (initialServerState opts)).2.2 = some e) := by
  constructor
  · intro h
    unfold newServer
    rw [h]
    simp
  · intro h
    unfold newServer at h
    by_cases hl : env.loggerFails
    · rw [if_pos hl] at h
      simp at h
    · rw [if_neg hl] at h
      refine ⟨by simpa using hl, ?_⟩
      rcases hr : regenerateRepositoryIndex env (initialServerState opts) with ⟨t, s2, r⟩
      rw [hr] at h
      simpa using h

/-- Witness for C10: with a failing logger the construction error is
swallowed; with a working logger and a failing initial regeneration the
regeneration error is returned. -/
theorem newServer_swallows_logger_error_witness :
    newServer { envW with loggerFails := true } { chartURL := "http://u" } =
      (emptyServerState, none) ∧
    ((newServer envW { chartURL := "http://u" }).2 = some (Err.storage "boom") →
      envW.loggerFails = false) :=
  ⟨(newServer_swallows_logger_error { envW with loggerFails := true }
      { chartURL := "http://u" } (Err.storage "boom")).1 (by decide),
   fun h => ((newServer_swallows_logger_error envW { chartURL := "http://u" }
      (Err.storage "boom")).2 h).1⟩

/-- Resolving with `load = true` always emits exactly one `GetObject` call
for the object's path. -/
theorem getObjectChartVersion_load_trace (env : Env) (o : Object) :
    (getObjectChartVersion env o true).1 = [Event.getCall o.path] := by
  unfold getObjectChartVersion
  cases env.backend.getObject o.path with
  | error e => rfl
  | ok o2 =>
    by_cases h : o2.content = "" <;> simp [h]

/-- On a successful regeneration, the recorded storage cache is exactly the
extension-filtered listing returned by the backend. -/
theorem regen_ok_cache (env : Env) (s : ServerState) (t : List Event) (s2 : ServerState)
    (h : regenerateRepositoryIndex env s = (t, s2, none)) :
    ∃ listing, env.backend.listObjects = Except.ok listing ∧
      s2.storageCache = listing.filter
        (fun o => o.hasExtension chartPackageFileExtension) := by
  unfold regenerateRepositoryIndex listObjectsGetDiff at h
  rcases hl : env.backend.listObjects with e | listing
  · rw [hl] at h
    simp at h
  · rw [hl] at h
    refine ⟨listing, rfl, ?_⟩
    dsimp only at h
    split at h
    · simp at h
    · split at h
      · simp at h
      · split at h
        · simp at h
        · split at h
          · simp at h
          · injection h with hA hBC
            injection hBC with hB hC
            rw [← hB]

/-- A fixture index with one entry. -/
def idx0 : Index := { entries := [cvA], raw := "", chartURL := "http://u" }

/-- An environment whose parser and path resolver always report the
invalid-package condition, and whose backend serves junk content. -/
def envI : Env :=
  { backend :=
      { listObjects := .ok [oA, oB],
        getObject := fun p => .ok { path := p, marker := 0, content := "junk" } },
    parse := fun _ => .error Err.invalidChartPackage,
    fromPath := fun _ => .error Err.invalidChartPackage,
    regen := fun url es => .ok (String.append url (toString es.length)),
    sched := id,
    loggerFails := false }

/-- C7: Empty content is InvalidArtifact — when the resolver fetches and the
fetched object's content is empty, the outcome is the distinguished
`invalidChartPackage` condition (which the downgrade check turns into a
skip), while a storage fetch failure is returned as-is (fatal when it is not
the invalid-package value). -/
theorem empty_content_is_invalid_artifact (env : Env) (o o2 : Object) (e : Err) :
    (env.backend.getObject o.path = .ok o2 → o2.content = "" →
      getObjectChartVersion env o true =
        ([Event.getCall o.path], .error Err.invalidChartPackage) ∧
      checkInvalidChartPackageError Err.invalidChartPackage = none) ∧
    (env.backend.getObject o.path = .error e →
      getObjectChartVersion env o true = ([Event.getCall o.path], .error e) ∧
      (e ≠ Err.invalidChartPackage → checkInvalidChartPackageError e = some e)) := by
  constructor
  · intro h1 h2
    constructor
    · unfold getObjectChartVersion
      rw [h1]
      simp [h2]
    · rfl
  · intro h1
    constructor
    · unfold getObjectChartVersion
      rw [h1]
      simp
    · intro hne
      unfold checkInvalidChartPackageError
      simp [hne]

/-- Witness for C7: with a backend returning an empty-content object the
resolver reports `invalidChartPackage`; with a failing backend it returns
the storage error. -/
theorem empty_content_is_invalid_artifact_witness :
    getObjectChartVersion
        { envI with backend :=
            { listObjects := .ok [],
              getObject := fun p => .ok { path := p, marker := 0, content := "" } } }
        oA true =
      ([Event.getCall oA.path], .error Err.invalidChartPackage) ∧
    getObjectChartVersion
        { envI with backend :=
            { listObjects := .ok [],
              getObject := fun _ => .error (Err.storage "down") } }
        oA true =
      ([Event.getCall oA.path], .error (Err.storage "down")) :=
  ⟨((empty_content_is_invalid_artifact
      { envI with backend :=
          { listObjects := .ok [],
            getObject := fun p => .ok { path := p, marker := 0, content := "" } } }
      oA { path := oA.path, marker := 0, content := "" }
      (Err.storage "down")).1 rfl rfl).1,
   ((empty_content_is_invalid_artifact
      { envI with backend :=
          { listObjects := .ok [],
            getObject := fun _ => .error (Err.storage "down") } }
      oA oA (Err.storage "down")).2 rfl).1⟩

/-- C6: Removed entries need no fetch — `removeIndexObject` resolves with
`fetchContent = false`, emits no storage events at all (in particular no
`GetObject` call), and its entire result is independent of the storage
backend: it is determined by the descriptor together with the path/content
identity functions alone. -/
theorem removed_entries_no_fetch (env env2 : Env) (index : Index) (o : Object) :
    (removeIndexObject env index o).1 = [] ∧
    (∀ p, Event.getCall p ∉ (removeIndexObject env index o).1) ∧
    (env.fromPath = env2.fromPath → env.parse = env2.parse →
      removeIndexObject env index o = removeIndexObject env2 index o) := by
  have htrace : (removeIndexObject env index o).1 = [] := by
    have h0 : (getObjectChartVersion env o false).1 = [] := by
      unfold getObjectChartVersion
      simp
    unfold removeIndexObject
    split
    · rename_i t e heq
      rw [heq] at h0
      split <;> exact h0
    · rename_i t cv heq
      rw [heq] at h0
      exact h0
  refine ⟨htrace, ?_, ?_⟩
  · intro p
    rw [htrace]
    simp
  · intro h1 h2
    unfold removeIndexObject getObjectChartVersion chartVersionFromStorageObject
    rw [h1, h2]
    simp

/-- Witness for C6: at concrete input, removal emits no events and two
environments differing only in their storage backend remove identically. -/
theorem removed_entries_no_fetch_witness :
    (removeIndexObject envI idx0 oA).1 = [] ∧
    removeIndexObject envI idx0 oA =
      removeIndexObject
        { envI with backend :=
            { listObjects := .error (Err.storage "down"),
              getObject := fun _ => .error (Err.storage "down") } }
        idx0 oA :=
  ⟨(removed_entries_no_fetch envI envI idx0 oA).1,
   (removed_entries_no_fetch envI
      { envI with backend :=
          { listObjects := .error (Err.storage "down"),
            getObject := fun _ => .error (Err.storage "down") } }
      idx0 oA).2.2 rfl rfl⟩

/-- C3: InvalidArtifact never escapes — a descriptor whose resolution yields
the invalid-package condition is downgraded to a skip on every path: removal
and update leave the index unchanged and return success, the corresponding
Added task sends the skip outcome `(none, none)`, the fan-in loop skips such
an outcome without aborting and without touching other entries, and the
downgrade check never turns the invalid-package condition into an error. -/
theorem invalid_artifact_never_escapes (env : Env) (index : Index) (o : Object)
    (os : List Object) :
    ((getObjectChartVersion env o false).2 = .error Err.invalidChartPackage →
      removeIndexObject env index o = ([], .ok index)) ∧
    ((getObjectChartVersion env o true).2 = .error Err.invalidChartPackage →
      updateIndexObject env index o = ([Event.getCall o.path], .ok index) ∧
      addTaskResult env o = (none, none)) ∧
    (addTaskResult env o = (none, none) →
      collectLoop env index (o :: os) =
        (Event.getCall o.path :: (collectLoop env index os).1,
         (collectLoop env index os).2.1 + 1,
         (collectLoop env index os).2.2)) ∧
    checkInvalidChartPackageError Err.invalidChartPackage = none := by
  refine ⟨?_, ?_, ?_, rfl⟩
  · intro h
    unfold removeIndexObject
    rcases hg : getObjectChartVersion env o false with ⟨t, r⟩
    rw [hg] at h
    simp at h
    have ht : t = [] := by
      have : (getObjectChartVersion env o false).1 = [] := by
        unfold getObjectChartVersion
        simp
      rw [hg] at this
      exact this
    rw [h, ht]
    rfl
  · intro h
    have ht := getObjectChartVersion_load_trace env o
    rcases hg : getObjectChartVersion env o true with ⟨t, r⟩
    rw [hg] at h ht
    simp at h ht
    constructor
    · unfold updateIndexObject
      rw [hg, h, ht]
      rfl
    · unfold addTaskResult
      rw [hg, h]
      rfl
  · intro h
    rcases hc : collectLoop env index os with ⟨t, n, r⟩
    unfold collectLoop
    rw [h, hc]

/-- Witness for C3: with an always-invalid parser, removal and update of a
concrete object leave the index unchanged and succeed, and the fan-in loop
skips the object's outcome while still succeeding. -/
theorem invalid_artifact_never_escapes_witness :
    removeIndexObject envI idx0 oA = ([], .ok idx0) ∧
    updateIndexObject envI idx0 oA = ([Event.getCall oA.path], .ok idx0) ∧
    collectLoop envI idx0 [oA] =
      (Event.getCall oA.path :: (collectLoop envI idx0 []).1,
       (collectLoop envI idx0 []).2.1 + 1,
       (collectLoop envI idx0 []).2.2) :=
  ⟨(invalid_artifact_never_escapes envI idx0 oA []).1 rfl,
   ((invalid_artifact_never_escapes envI idx0 oA []).2.1 rfl).1,
   (invalid_artifact_never_escapes envI idx0 oA []).2.2.1 rfl⟩

/-- The Added set of a diff is drawn from the new listing. -/
theorem mem_added_sub {olds news : List Object} {o : Object}
    (h : o ∈ (getObjectSliceDiff olds news).added) : o ∈ news := by
  unfold getObjectSliceDiff at h
  simp only [List.mem_filter] at h
  exact h.1

/-- The Updated set of a diff is drawn from the new listing. -/
theorem mem_updated_sub {olds news : List Object} {o : Object}
    (h : o ∈ (getObjectSliceDiff olds news).updated) : o ∈ news := by
  unfold getObjectSliceDiff at h
  simp only [List.mem_filter] at h
  exact h.1

/-- The Removed set of a diff is drawn from the old snapshot. -/
theorem mem_removed_sub {olds news : List Object} {o : Object}
    (h : o ∈ (getObjectSliceDiff olds news).removed) : o ∈ olds := by
  unfold getObjectSliceDiff at h
  simp only [List.mem_filter] at h
  exact h.1

/-- C5: Extension filter — diffing runs only over descriptors carrying the
chart-package extension: assuming the invariant that the current snapshot
holds only such descriptors, an object without the extension is in none of
the filtered listing, Added, Updated, or Removed, and after any successful
regeneration every snapshot member carries the extension. -/
theorem extension_filter (env : Env) (s : ServerState) (objects : List Object)
    (diff : ObjectSliceDiff) (t : List Event)
    (hcache : ∀ o ∈ s.storageCache, o.hasExtension chartPackageFileExtension = true)
    (h : listObjectsGetDiff env s = (t, .ok (objects, diff))) :
    (∀ o : Object, o.hasExtension chartPackageFileExtension = false →
      o ∉ objects ∧ o ∉ diff.added ∧ o ∉ diff.updated ∧ o ∉ diff.removed) ∧
    (∀ t2 s2, regenerateRepositoryIndex env s = (t2, s2, none) →
      ∀ o ∈ s2.storageCache, o.hasExtension chartPackageFileExtension = true) := by
  constructor
  · intro o ho
    unfold listObjectsGetDiff at h
    rcases hl : env.backend.listObjects with e | listing
    · rw [hl] at h
      simp at h
    · rw [hl] at h
      dsimp only at h
      injection h with hA hBC
      injection hBC with hB
      injection hB with hobj hdiff
      have hobjs : o ∉ objects := by
        rw [← hobj]
        intro hmem
        rw [List.mem_filter] at hmem
        rw [ho] at hmem
        exact Bool.false_ne_true hmem.2
      refine ⟨hobjs, ?_, ?_, ?_⟩
      · intro hmem
        exact hobjs (hobj ▸ mem_added_sub (hdiff ▸ hmem))
      · intro hmem
        exact hobjs (hobj ▸ mem_updated_sub (hdiff ▸ hmem))
      · intro hmem
        have := mem_removed_sub (hdiff ▸ hmem)
        rw [hcache o this] at ho
        exact Bool.noConfusion ho
  · intro t2 s2 h2 o ho
    obtain ⟨listing, hl, hc⟩ := regen_ok_cache env s t2 s2 h2
    rw [hc] at ho
    rw [List.mem_filter] at ho
    exact ho.2

/-- Witness for C5: with a cache invariant trivially satisfied by the empty
cache, a `.txt` store object is in none of the diff sets of the concrete
listing. -/
theorem extension_filter_witness :
    ({ path := "readme.txt", marker := 5, content := "" } : Object) ∉ ([oA, oB] : List Object) ∧
    ({ path := "readme.txt", marker := 5, content := "" } : Object) ∉
      (getObjectSliceDiff sW.storageCache [oA, oB]).added :=
  have h := (extension_filter envW sW [oA, oB]
      (getObjectSliceDiff sW.storageCache [oA, oB]) [Event.listCall]
      (by intro o ho; simp [sW] at ho) rfl).1
      { path := "readme.txt", marker := 5, content := "" } (by decide)
  ⟨h.1, h.2.1⟩

/-- Path-membership characterization of the diff: the new listing's paths
are exactly (old paths ∪ Added paths ∪ Updated paths) minus Removed paths. -/
theorem diff_paths_partition (olds news : List Object) (p : String) :
    p ∈ news.map Object.path ↔
      ((p ∈ olds.map Object.path ∨
        p ∈ (getObjectSliceDiff olds news).added.map Object.path ∨
        p ∈ (getObjectSliceDiff olds news).updated.map Object.path) ∧
       p ∉ (getObjectSliceDiff olds news).removed.map Object.path) := by
  unfold getObjectSliceDiff
  simp only [List.mem_map, List.mem_filter, List.any_eq_true, Bool.not_eq_true',
    List.any_eq_false, decide_eq_true_eq, Bool.and_eq_true, bne_iff_ne, ne_eq,
    decide_eq_false_iff_not]
  constructor
  · rintro ⟨n, hn, rfl⟩
    constructor
    · by_cases hold : ∃ o ∈ olds, o.path = n.path
      · left
        exact hold
      · right; left
        exact ⟨n, ⟨hn, fun x hx hc => hold ⟨x, hx, hc⟩⟩, rfl⟩
    · rintro ⟨a, ⟨ha, hall⟩, hap⟩
      exact hall n hn hap.symm
  · rintro ⟨h1, h2⟩
    rcases h1 with ⟨o, ho, hp⟩ | ⟨a, ⟨ha, _⟩, hap⟩ | ⟨a, ⟨ha, _⟩, hap⟩
    · by_contra hc
      push_neg at hc
      exact h2 ⟨o, ⟨ho, fun x hx hxo => hc x hx (hxo.trans hp)⟩, hp⟩
    · exact ⟨a, ha, hap⟩
    · exact ⟨a, ha, hap⟩

/-- C8: Snapshot baseline after success — at the end of every successful
regeneration the recorded snapshot is exactly the extension-filtered object
list just observed from the store, whose paths are equivalently
(old snapshot ∪ Added ∪ Updated) minus Removed of the diff the regeneration
computed. -/
theorem snapshot_baseline (env : Env) (s : ServerState) (t : List Event) (s2 : ServerState)
    (h : regenerateRepositoryIndex env s = (t, s2, none)) :
    ∃ listing, env.backend.listObjects = Except.ok listing ∧
      s2.storageCache = listing.filter
        (fun o => o.hasExtension chartPackageFileExtension) ∧
      (∀ p : String,
        p ∈ s2.storageCache.map Object.path ↔
          ((p ∈ s.storageCache.map Object.path ∨
            p ∈ (getObjectSliceDiff s.storageCache s2.storageCache).added.map Object.path ∨
            p ∈ (getObjectSliceDiff s.storageCache s2.storageCache).updated.map Object.path) ∧
           p ∉ (getObjectSliceDiff s.storageCache s2.storageCache).removed.map Object.path)) := by
  obtain ⟨listing, hl, hc⟩ := regen_ok_cache env s t s2 h
  exact ⟨listing, hl, hc, fun p => diff_paths_partition s.storageCache s2.storageCache p⟩

/-- A backend and environment where every object fetch and parse succeeds. -/
def envG : Env :=
  { backend :=
      { listObjects := .ok [oA, oB],
        getObject := fun p => .ok { path := p, marker := 9, content := "bcontent" } },
    parse := fun c => if c = "bcontent" then .ok cvB else .error Err.invalidChartPackage,
    fromPath := fun _ => .ok cvA,
    regen := fun url es => .ok (String.append url (toString es.length)),
    sched := id,
    loggerFails := false }

/-- Witness for C8: a concrete successful regeneration records the filtered
listing as the snapshot. -/
theorem snapshot_baseline_witness :
    ∃ listing, envG.backend.listObjects = Except.ok listing ∧
      (regenerateRepositoryIndex envG sW).2.1.storageCache = listing.filter
        (fun o => o.hasExtension chartPackageFileExtension) ∧
      (∀ p : String,
        p ∈ (regenerateRepositoryIndex envG sW).2.1.storageCache.map Object.path ↔
          ((p ∈ sW.storageCache.map Object.path ∨
            p ∈ (getObjectSliceDiff sW.storageCache
                  (regenerateRepositoryIndex envG sW).2.1.storageCache).added.map Object.path ∨
            p ∈ (getObjectSliceDiff sW.storageCache
                  (regenerateRepositoryIndex envG sW).2.1.storageCache).updated.map Object.path) ∧
           p ∉ (getObjectSliceDiff sW.storageCache
                  (regenerateRepositoryIndex envG sW).2.1.storageCache).removed.map Object.path)) :=
  snapshot_baseline envG sW (regenerateRepositoryIndex envG sW).1
    (regenerateRepositoryIndex envG sW).2.1 rfl

/-- Unfolding the fan-in loop at a fatal first arrival. -/
theorem collectLoop_cons_fatal (env : Env) (index : Index) (o : Object) (os : List Object)
    (e : Err) (he : (addTaskResult env o).2 = some e) :
    collectLoop env index (o :: os) = ([Event.getCall o.path], 1, .error e) := by
  unfold collectLoop
  rw [he]

/-- Unfolding the fan-in loop at a skipped (nil chart version) first arrival. -/
theorem collectLoop_cons_skip (env : Env) (index : Index) (o : Object) (os : List Object)
    (he : (addTaskResult env o).2 = none) (hcv : (addTaskResult env o).1 = none) :
    collectLoop env index (o :: os) =
      (Event.getCall o.path :: (collectLoop env index os).1,
       (collectLoop env index os).2.1 + 1, (collectLoop env index os).2.2) := by
  rcases hc : collectLoop env index os with ⟨t, n, r⟩
  unfold collectLoop
  rw [he, hcv, hc]

/-- Unfolding the fan-in loop at a successful first arrival. -/
theorem collectLoop_cons_add (env : Env) (index : Index) (o : Object) (os : List Object)
    (cv : ChartVersion) (he : (addTaskResult env o).2 = none)
    (hcv : (addTaskResult env o).1 = some cv) :
    collectLoop env index (o :: os) =
      (Event.getCall o.path :: (collectLoop env (index.addEntry cv) os).1,
       (collectLoop env (index.addEntry cv) os).2.1 + 1,
       (collectLoop env (index.addEntry cv) os).2.2) := by
  rcases hc : collectLoop env (index.addEntry cv) os with ⟨t, n, r⟩
  unfold collectLoop
  rw [he, hcv]
  dsimp only
  rw [hc]

/-- Characterization of the fan-in loop: on the first fatal outcome in
arrival order it returns that error having performed exactly (position + 1)
receives, leaving later outcomes unreceived; when no fatal outcome arrives
it performs exactly one receive per dispatched task. -/
theorem collectLoop_spec (env : Env) (arr : List Object) :
    ∀ index : Index,
      (∀ e, (collectLoop env index arr).2.2 = .error e →
        ∃ k, (collectLoop env index arr).2.1 = k + 1 ∧ k < arr.length ∧
          (∃ o, arr.get? k = some o ∧ (addTaskResult env o).2 = some e) ∧
          (∀ i o2, i < k → arr.get? i = some o2 → (addTaskResult env o2).2 = none)) ∧
      (∀ index2, (collectLoop env index arr).2.2 = .ok index2 →
        (collectLoop env index arr).2.1 = arr.length) := by
  induction arr with
  | nil =>
    intro index
    constructor
    · intro e he
      simp [collectLoop] at he
    · intro index2 _
      rfl
  | cons o os ih =>
    intro index
    cases he0 : (addTaskResult env o).2 with
    | some e0 =>
      have hcl := collectLoop_cons_fatal env index o os e0 he0
      constructor
      · intro e he
        rw [hcl] at he
        simp at he
        subst he
        refine ⟨0, by rw [hcl], by simp, ⟨o, rfl, he0⟩, ?_⟩
        intro i o2 hi
        omega
      · intro index2 h2
        rw [hcl] at h2
        simp at h2
    | none =>
      have hmain : ∀ idxN : Index,
          (∀ e, (collectLoop env idxN os).2.2 = .error e →
            ∃ k, (collectLoop env idxN os).2.1 + 1 = (k + 1) + 1 ∧
              k + 1 < (o :: os).length ∧
              (∃ o3, (o :: os).get? (k + 1) = some o3 ∧ (addTaskResult env o3).2 = some e) ∧
              (∀ i o2, i < k + 1 → (o :: os).get? i = some o2 →
                (addTaskResult env o2).2 = none)) ∧
          (∀ index2, (collectLoop env idxN os).2.2 = .ok index2 →
            (collectLoop env idxN os).2.1 + 1 = (o :: os).length) := by
        intro idxN
        constructor
        · intro e he
          obtain ⟨k, hk1, hk2, ⟨o3, ho3, hfat⟩, hprior⟩ := (ih idxN).1 e he
          refine ⟨k, by rw [hk1], by simpa using hk2, ⟨o3, by simpa using ho3, hfat⟩, ?_⟩
          intro i o2 hi hg
          cases i with
          | zero =>
            rw [List.get?_cons_zero] at hg
            injection hg with hg
            rw [← hg]
            exact he0
          | succ j =>
            rw [List.get?_cons_succ] at hg
            exact hprior j o2 (by omega) hg
        · intro index2 h2
          have := (ih idxN).2 index2 h2
          simp [this]
      cases hcv : (addTaskResult env o).1 with
      | none =>
        have hcl := collectLoop_cons_skip env index o os he0 hcv
        constructor
        · intro e he
          rw [hcl] at he
          dsimp only at he
          obtain ⟨k, hk1, hk2, hfat, hprior⟩ := (hmain index).1 e he
          exact ⟨k + 1, by rw [hcl]; exact hk1, hk2, hfat, hprior⟩
        · intro index2 h2
          rw [hcl] at h2
          dsimp only at h2
          rw [hcl]
          exact (hmain index).2 index2 h2
      | some cv =>
        have hcl := collectLoop_cons_add env index o os cv he0 hcv
        constructor
        · intro e he
          rw [hcl] at he
          dsimp only at he
          obtain ⟨k, hk1, hk2, hfat, hprior⟩ := (hmain (index.addEntry cv)).1 e he
          exact ⟨k + 1, by rw [hcl]; exact hk1, hk2, hfat, hprior⟩
        · intro index2 h2
          rw [hcl] at h2
          dsimp only at h2
          rw [hcl]
          exact (hmain (index.addEntry cv)).2 index2 h2

/-- C2 counterexample: with two dispatched Added tasks whose first arrival
outcome is fatal, the coordinator performs exactly one receive and returns
the error — it does not collect len(Added) = 2 outcomes, so the remaining
outcome is left undelivered rather than drained. -/
theorem fan_in_not_drained_counterexample :
    (addIndexObjectsAsync envW idx0 [oA, oB]).2.2 = .error (Err.storage "boom") ∧
    (addIndexObjectsAsync envW idx0 [oA, oB]).2.1 = 1 ∧
    (addIndexObjectsAsync envW idx0 [oA, oB]).2.1 ≠ [oA, oB].length :=
  ⟨rfl, rfl, by decide⟩

/-- C2 (amended): after dispatching one task per member of the Added set,
the coordinator receives outcomes in arrival order; on the first fatal
(non-InvalidArtifact) outcome it returns that error immediately, having
received exactly the outcomes up to and including the fatal one (later
outcomes are not drained); only when no fatal outcome arrives does it
collect exactly len(Added) outcomes. -/
theorem fan_in_first_fatal_short_circuit (env : Env) (index : Index)
    (objects : List Object) (hperm : (env.sched objects).Perm objects) :
    (∀ e, (addIndexObjectsAsync env index objects).2.2 = .error e →
      ∃ k, (addIndexObjectsAsync env index objects).2.1 = k + 1 ∧ k < objects.length ∧
        (∃ o, (env.sched objects).get? k = some o ∧ (addTaskResult env o).2 = some e) ∧
        (∀ i o2, i < k → (env.sched objects).get? i = some o2 →
          (addTaskResult env o2).2 = none)) ∧
    (∀ index2, (addIndexObjectsAsync env index objects).2.2 = .ok index2 →
      (addIndexObjectsAsync env index objects).2.1 = objects.length) := by
  unfold addIndexObjectsAsync
  by_cases h0 : objects.length = 0
  · rw [if_pos h0]
    constructor
    · intro e he
      simp at he
    · intro index2 _
      rw [h0]
  · rw [if_neg h0]
    have hs := collectLoop_spec env (env.sched objects) index
    rw [hperm.length_eq] at hs
    exact hs

/-- Witness for C2 (amended): with an all-success environment over two
Added objects the coordinator collects exactly two outcomes. -/
theorem fan_in_first_fatal_short_circuit_witness :
    (addIndexObjectsAsync envG idx0 [oA, oB]).2.1 = [oA, oB].length :=
  (fan_in_first_fatal_short_circuit envG idx0 [oA, oB] (by decide)).2
    { entries := [cvA, cvB], raw := "", chartURL := "http://u" } rfl

/-- Diffing a listing against itself yields the empty diff, provided the
listing has no duplicate paths. -/
theorem getObjectSliceDiff_self (objs : List Object)
    (h : (objs.map Object.path).Nodup) :
    getObjectSliceDiff objs objs =
      { added := [], removed := [], updated := [], change := false } := by
  have hinj : ∀ x ∈ objs, ∀ y ∈ objs, x.path = y.path → x = y :=
    fun x hx y hy hxy => List.inj_on_of_nodup_map h hx hy hxy
  have hrem : objs.filter (fun o => !(objs.any (fun n => n.path = o.path))) = [] := by
    rw [List.filter_eq_nil_iff]
    intro o ho
    simp
    exact ⟨o, ho, rfl⟩
  have hupd : objs.filter
      (fun n => objs.any (fun o => o.path = n.path && o.marker ≠ n.marker)) = [] := by
    rw [List.filter_eq_nil_iff]
    intro n hn
    simp
    intro o ho hp
    rw [hinj o ho n hn hp]
  unfold getObjectSliceDiff
  rw [hrem, hupd]
  rfl

/-- A diff reporting no change has empty Added, Removed and Updated sets. -/
theorem change_false_empty (olds news : List Object)
    (h : (getObjectSliceDiff olds news).change = false) :
    (getObjectSliceDiff olds news).added = [] ∧
    (getObjectSliceDiff olds news).removed = [] ∧
    (getObjectSliceDiff olds news).updated = [] := by
  unfold getObjectSliceDiff at h ⊢
  dsimp only at h ⊢
  rw [decide_eq_false_iff_not] at h
  push_neg at h
  refine ⟨?_, ?_, ?_⟩ <;> rw [← List.length_eq_zero] <;> omega

/-- A successful sync either skipped on an unchanged diff or ran a
successful regeneration. -/
theorem sync_cases (env : Env) (s : ServerState) (t : List Event) (s1 : ServerState)
    (hs : syncRepositoryIndex env s = (t, s1, none)) :
    ∃ listing, env.backend.listObjects = Except.ok listing ∧
      (((getObjectSliceDiff s.storageCache
          (listing.filter (fun o => o.hasExtension chartPackageFileExtension))).change =
            false ∧ s1 = s) ∨
       ∃ t2, regenerateRepositoryIndex env s = (t2, s1, none)) := by
  unfold syncRepositoryIndex listObjectsGetDiff at hs
  rcases hl : env.backend.listObjects with e | listing
  · rw [hl] at hs
    simp at hs
  · rw [hl] at hs
    refine ⟨listing, rfl, ?_⟩
    dsimp only at hs
    split at hs
    · rcases hr : regenerateRepositoryIndex env s with ⟨t2, s2, r⟩
      rw [hr] at hs
      dsimp only at hs
      injection hs with hA hBC
      injection hBC with hB hC
      right
      exact ⟨t2, by rw [hB, hC]⟩
    · rename_i hchange
      left
      injection hs with hA hBC
      injection hBC with hB hC
      exact ⟨by simpa using hchange, hB.symm⟩

/-- A regeneration over an empty diff performs no fetches, keeps the entry
set, restamps the document and records the filtered listing. -/
theorem regen_empty_diff (env : Env) (s : ServerState) (listing : List Object) (d : String)
    (hl : env.backend.listObjects = Except.ok listing)
    (hadd : (getObjectSliceDiff s.storageCache
        (listing.filter (fun o => o.hasExtension chartPackageFileExtension))).added = [])
    (hrem : (getObjectSliceDiff s.storageCache
        (listing.filter (fun o => o.hasExtension chartPackageFileExtension))).removed = [])
    (hupd : (getObjectSliceDiff s.storageCache
        (listing.filter (fun o => o.hasExtension chartPackageFileExtension))).updated = [])
    (hdoc : env.regen s.repositoryIndex.chartURL s.repositoryIndex.entries = Except.ok d) :
    regenerateRepositoryIndex env s =
      ([Event.lockAcquire, Event.listCall, Event.publish, Event.lockRelease],
       { repositoryIndex :=
           { entries := s.repositoryIndex.entries, raw := d,
             chartURL := s.repositoryIndex.chartURL },
         storageCache := listing.filter
           (fun o => o.hasExtension chartPackageFileExtension) },
       none) := by
  unfold regenerateRepositoryIndex listObjectsGetDiff
  rw [hl]
  dsimp only
  rw [hrem, hupd, hadd]
  dsimp only [removeList, updateList, addIndexObjectsAsync, List.length_nil]
  rw [if_pos rfl]
  dsimp only
  rw [hdoc]
  rfl

/-- C4: Idempotence / empty-diff skip — after any successful sync under a
fixed duplicate-free listing, a second sync returns success immediately with
the state unchanged, performing no `GetObject` call (its whole trace is the
one listing call); and this short-circuit agrees with running the full
rebuild, which succeeds with zero mutations: identical entries and chart
URL, the filtered listing as snapshot, and no change between the two
snapshots. -/
theorem empty_diff_skip_idempotent (env : Env) (s : ServerState) (listing : List Object)
    (t : List Event) (s1 : ServerState) (d : String)
    (hl : env.backend.listObjects = Except.ok listing)
    (hnd : (listing.map Object.path).Nodup)
    (hs : syncRepositoryIndex env s = (t, s1, none))
    (hdoc : env.regen s1.repositoryIndex.chartURL s1.repositoryIndex.entries =
      Except.ok d) :
    syncRepositoryIndex env s1 = ([Event.listCall], s1, none) ∧
    ∃ s2, regenerateRepositoryIndex env s1 =
        ([Event.lockAcquire, Event.listCall, Event.publish, Event.lockRelease], s2, none) ∧
      s2.repositoryIndex.entries = s1.repositoryIndex.entries ∧
      s2.repositoryIndex.chartURL = s1.repositoryIndex.chartURL ∧
      s2.storageCache = listing.filter
        (fun o => o.hasExtension chartPackageFileExtension) ∧
      (getObjectSliceDiff s1.storageCache s2.storageCache).change = false := by
  have hndf : ((listing.filter
      (fun o => o.hasExtension chartPackageFileExtension)).map Object.path).Nodup :=
    hnd.sublist ((List.filter_sublist listing).map Object.path)
  have hchange1 : (getObjectSliceDiff s1.storageCache
      (listing.filter (fun o => o.hasExtension chartPackageFileExtension))).change =
        false := by
    obtain ⟨listing0, hl0, hcases⟩ := sync_cases env s t s1 hs
    rw [hl] at hl0
    injection hl0 with hl0
    subst hl0
    rcases hcases with ⟨hch, hseq⟩ | ⟨t2, hr⟩
    · rw [hseq]
      exact hch
    · obtain ⟨listing1, hl1, hc1⟩ := regen_ok_cache env s t2 s1 hr
      rw [hl] at hl1
      injection hl1 with hl1
      subst hl1
      rw [hc1, getObjectSliceDiff_self _ hndf]
  obtain ⟨hadd, hrem, hupd⟩ := change_false_empty s1.storageCache
    (listing.filter (fun o => o.hasExtension chartPackageFileExtension)) hchange1
  constructor
  · unfold syncRepositoryIndex listObjectsGetDiff
    rw [hl]
    dsimp only
    rw [if_neg (by rw [hchange1]; exact Bool.false_ne_true)]
  · refine ⟨_, regen_empty_diff env s1 listing d hl hadd hrem hupd hdoc, rfl, rfl, rfl, ?_⟩
    exact hchange1

/-- Witness for C4: after a concrete successful sync from the empty state,
the second sync skips with an unchanged state. -/
theorem empty_diff_skip_idempotent_witness :
    syncRepositoryIndex envG (syncRepositoryIndex envG sW).2.1 =
      ([Event.listCall], (syncRepositoryIndex envG sW).2.1, none) :=
  (empty_diff_skip_idempotent envG sW [oA, oB] (syncRepositoryIndex envG sW).1
    (syncRepositoryIndex envG sW).2.1 "http://u1" rfl (by decide) rfl rfl).1

/-- `listObjectsGetDiff` emits exactly the listing call. -/
theorem listObjectsGetDiff_trace (env : Env) (s : ServerState) :
    (listObjectsGetDiff env s).1 = [Event.listCall] := by
  unfold listObjectsGetDiff
  cases env.backend.listObjects <;> rfl

/-- `removeIndexObject` emits no events. -/
theorem removeIndexObject_trace (env : Env) (index : Index) (o : Object) :
    (removeIndexObject env index o).1 = [] := by
  have h0 : (getObjectChartVersion env o false).1 = [] := by
    unfold getObjectChartVersion
    simp
  unfold removeIndexObject
  split
  · rename_i t e heq
    rw [heq] at h0
    split <;> exact h0
  · rename_i t cv heq
    rw [heq] at h0
    exact h0

/-- `updateIndexObject` emits exactly one fetch event. -/
theorem updateIndexObject_trace (env : Env) (index : Index) (o : Object) :
    (updateIndexObject env index o).1 = [Event.getCall o.path] := by
  have h0 := getObjectChartVersion_load_trace env o
  unfold updateIndexObject
  split
  · rename_i t e heq
    rw [heq] at h0
    split <;> exact h0
  · rename_i t cv heq
    rw [heq] at h0
    exact h0

/-- The removal loop emits no events. -/
theorem removeList_trace (env : Env) (os : List Object) :
    ∀ index : Index, (removeList env index os).1 = [] := by
  induction os with
  | nil =>
    intro index
    rfl
  | cons o os ih =>
    intro index
    have h0 := removeIndexObject_trace env index o
    unfold removeList
    split
    · rename_i t e heq
      rw [heq] at h0
      exact h0
    · rename_i t index2 heq
      rw [heq] at h0
      rcases h2 : removeList env index2 os with ⟨t2, r⟩
      have h3 := ih index2
      rw [h2] at h3
      have ht : t = [] := h0
      have ht2 : t2 = [] := h3
      rw [ht, ht2]
      rfl

/-- A trace holding only fetch events. -/
def onlyGets (tr : List Event) : Prop :=
  ∀ e ∈ tr, ∃ p, e = Event.getCall p

/-- A trace of fetch events holds no lock-acquire event. -/
theorem onlyGets_no_acquire {tr : List Event} (h : onlyGets tr) :
    Event.lockAcquire ∉ tr := by
  intro hm
  rcases h _ hm with ⟨p, hp⟩
  cases hp

/-- A trace of fetch events holds no lock-release event. -/
theorem onlyGets_no_release {tr : List Event} (h : onlyGets tr) :
    Event.lockRelease ∉ tr := by
  intro hm
  rcases h _ hm with ⟨p, hp⟩
  cases hp

/-- The update loop emits only fetch events. -/
theorem updateList_onlyGets (env : Env) (os : List Object) :
    ∀ index : Index, onlyGets (updateList env index os).1 := by
  induction os with
  | nil =>
    intro index e he
    simp [updateList] at he
  | cons o os ih =>
    intro index
    have h0 := updateIndexObject_trace env index o
    unfold updateList
    split
    · rename_i t e2 heq
      rw [heq] at h0
      have ht : t = [Event.getCall o.path] := h0
      intro e he
      rw [ht] at he
      simp at he
      exact ⟨o.path, he⟩
    · rename_i t index2 heq
      rw [heq] at h0
      have ht : t = [Event.getCall o.path] := h0
      rcases h2 : updateList env index2 os with ⟨t2, r⟩
      have h3 := ih index2
      rw [h2] at h3
      intro e he
      rw [ht] at he
      rcases List.mem_append.mp he with he2 | he2
      · simp at he2
        exact ⟨o.path, he2⟩
      · exact h3 e he2

/-- The fan-in loop emits only fetch events. -/
theorem collectLoop_onlyGets (env : Env) (arr : List Object) :
    ∀ index : Index, onlyGets (collectLoop env index arr).1 := by
  induction arr with
  | nil =>
    intro index e he
    simp [collectLoop] at he
  | cons o os ih =>
    intro index
    cases he0 : (addTaskResult env o).2 with
    | some e0 =>
      rw [collectLoop_cons_fatal env index o os e0 he0]
      intro e he
      simp at he
      exact ⟨o.path, he⟩
    | none =>
      cases hcv : (addTaskResult env o).1 with
      | none =>
        rw [collectLoop_cons_skip env index o os he0 hcv]
        intro e he
        simp at he
        rcases he with he | he
        · exact ⟨o.path, he⟩
        · exact ih index e he
      | some cv =>
        rw [collectLoop_cons_add env index o os cv he0 hcv]
        intro e he
        simp at he
        rcases he with he | he
        · exact ⟨o.path, he⟩
        · exact ih (index.addEntry cv) e he

/-- The concurrent Added stage emits only fetch events. -/
theorem addIndexObjectsAsync_onlyGets (env : Env) (index : Index) (objects : List Object) :
    onlyGets (addIndexObjectsAsync env index objects).1 := by
  unfold addIndexObjectsAsync
  split
  · intro e he
    simp at he
  · exact collectLoop_onlyGets env (env.sched objects) index

/-- The trace of every regeneration starts by acquiring the storage cache
lock and ends by releasing it — on the failure paths as much as on the
success path — and the guard is neither re-acquired nor released early in
between. -/
theorem regen_trace_shape (env : Env) (s : ServerState) :
    ∃ mid, (regenerateRepositoryIndex env s).1 =
        Event.lockAcquire :: (mid ++ [Event.lockRelease]) ∧
      Event.lockAcquire ∉ mid ∧ Event.lockRelease ∉ mid := by
  have hT := listObjectsGetDiff_trace env s
  unfold regenerateRepositoryIndex
  split
  · rename_i t e heq
    rw [heq] at hT
    have ht : t = [Event.listCall] := hT
    refine ⟨t, rfl, ?_, ?_⟩ <;> rw [ht] <;> simp
  · rename_i t objs pr heq
    rw [heq] at hT
    have ht : t = [Event.listCall] := hT
    dsimp only
    split
    · rename_i t2 e heq2
      have ht2 : t2 = [] := by
        have h2 := removeList_trace env pr.removed
          { entries := s.repositoryIndex.entries, raw := s.repositoryIndex.raw,
            chartURL := s.repositoryIndex.chartURL }
        rw [heq2] at h2
        exact h2
      refine ⟨t ++ t2, rfl, ?_, ?_⟩ <;> rw [ht, ht2] <;> simp
    · rename_i t2 index2 heq2
      have ht2 : t2 = [] := by
        have h2 := removeList_trace env pr.removed
          { entries := s.repositoryIndex.entries, raw := s.repositoryIndex.raw,
            chartURL := s.repositoryIndex.chartURL }
        rw [heq2] at h2
        exact h2
      split
      · rename_i t3 e heq3
        have ht3 : onlyGets t3 := by
          have h3 := updateList_onlyGets env pr.updated index2
          rw [heq3] at h3
          exact h3
        refine ⟨t ++ t2 ++ t3, rfl, ?_, ?_⟩
        · intro hm
          rcases List.mem_append.mp hm with hm | hm
          · rcases List.mem_append.mp hm with hm | hm
            · rw [ht] at hm
              simp at hm
            · rw [ht2] at hm
              simp at hm
          · exact onlyGets_no_acquire ht3 hm
        · intro hm
          rcases List.mem_append.mp hm with hm | hm
          · rcases List.mem_append.mp hm with hm | hm
            · rw [ht] at hm
              simp at hm
            · rw [ht2] at hm
              simp at hm
          · exact onlyGets_no_release ht3 hm
      · rename_i t3 index3 heq3
        have ht3 : onlyGets t3 := by
          have h3 := updateList_onlyGets env pr.updated index2
          rw [heq3] at h3
          exact h3
        split
        · rename_i t4 n4 e heq4
          have ht4 : onlyGets t4 := by
            have h4 := addIndexObjectsAsync_onlyGets env index3 pr.added
            rw [heq4] at h4
            exact h4
          refine ⟨t ++ t2 ++ t3 ++ t4, rfl, ?_, ?_⟩
          · intro hm
            rcases List.mem_append.mp hm with hm | hm
            · rcases List.mem_append.mp hm with hm | hm
              · rcases List.mem_append.mp hm with hm | hm
                · rw [ht] at hm
                  simp at hm
                · rw [ht2] at hm
                  simp at hm
              · exact onlyGets_no_acquire ht3 hm
            · exact onlyGets_no_acquire ht4 hm
          · intro hm
            rcases List.mem_append.mp hm with hm | hm
            · rcases List.mem_append.mp hm with hm | hm
              · rcases List.mem_append.mp hm with hm | hm
                · rw [ht] at hm
                  simp at hm
                · rw [ht2] at hm
                  simp at hm
              · exact onlyGets_no_release ht3 hm
            · exact onlyGets_no_release ht4 hm
        · rename_i t4 n4 index4 heq4
          have ht4 : onlyGets t4 := by
            have h4 := addIndexObjectsAsync_onlyGets env index3 pr.added
            rw [heq4] at h4
            exact h4
          have hnoAcq : Event.lockAcquire ∉ t ++ t2 ++ t3 ++ t4 ++ [Event.publish] := by
            intro hm
            rcases List.mem_append.mp hm with hm | hm
            · rcases List.mem_append.mp hm with hm | hm
              · rcases List.mem_append.mp hm with hm | hm
                · rcases List.mem_append.mp hm with hm | hm
                  · rw [ht] at hm
                    simp at hm
                  · rw [ht2] at hm
                    simp at hm
                · exact onlyGets_no_acquire ht3 hm
              · exact onlyGets_no_acquire ht4 hm
            · simp at hm
          have hnoRel : Event.lockRelease ∉ t ++ t2 ++ t3 ++ t4 ++ [Event.publish] := by
            intro hm
            rcases List.mem_append.mp hm with hm | hm
            · rcases List.mem_append.mp hm with hm | hm
              · rcases List.mem_append.mp hm with hm | hm
                · rcases List.mem_append.mp hm with hm | hm
                  · rw [ht] at hm
                    simp at hm
                  · rw [ht2] at hm
                    simp at hm
                · exact onlyGets_no_release ht3 hm
              · exact onlyGets_no_release ht4 hm
            · simp at hm
          split
          · rename_i e heq5
            refine ⟨t ++ t2 ++ t3 ++ t4, rfl, ?_, ?_⟩
            · intro hm
              exact hnoAcq (List.mem_append.mpr (Or.inl hm))
            · intro hm
              exact hnoRel (List.mem_append.mpr (Or.inl hm))
          · rename_i doc heq5
            refine ⟨t ++ t2 ++ t3 ++ t4 ++ [Event.publish], ?_, hnoAcq, hnoRel⟩
            simp

/-- The trace of every `syncRepositoryIndex` call starts with a listing call
performed before any lock event; the remainder is empty (listing error or
unchanged diff) or exactly a regeneration trace. -/
theorem sync_trace_shape (env : Env) (s : ServerState) :
    ∃ rest, (syncRepositoryIndex env s).1 = Event.listCall :: rest ∧
      (rest = [] ∨ rest = (regenerateRepositoryIndex env s).1) := by
  have hT := listObjectsGetDiff_trace env s
  unfold syncRepositoryIndex
  split
  · rename_i t e heq
    rw [heq] at hT
    have ht : t = [Event.listCall] := hT
    exact ⟨[], by rw [ht], Or.inl rfl⟩
  · rename_i t objs pr heq
    rw [heq] at hT
    have ht : t = [Event.listCall] := hT
    dsimp only
    split
    · refine ⟨(regenerateRepositoryIndex env s).1, ?_, Or.inr rfl⟩
      rw [ht]
      rfl
    · exact ⟨[], by rw [ht], Or.inl rfl⟩

/-- A server state whose snapshot already equals the store listing of
`envG`, so that the diff is empty. -/
def sG : ServerState := { repositoryIndex := idx0, storageCache := [oA, oB] }

/-- C9 counterexample: a `Sync` call under an unchanged listing performs its
storage listing and diff pre-check and returns success with a trace that
holds no lock-acquire event at all — the call completed without ever
acquiring (hence without blocking on) the guard, so a `Sync` arriving during
a regeneration does its listing/diffing concurrently rather than blocking
first. -/
theorem sync_runs_unguarded_counterexample :
    syncRepositoryIndex envG sG = ([Event.listCall], sG, none) ∧
    Event.listCall ∈ (syncRepositoryIndex envG sG).1 ∧
    Event.lockAcquire ∉ (syncRepositoryIndex envG sG).1 :=
  ⟨rfl, by decide, by decide⟩

/-- C9 (amended): at most one regeneration runs at a time — every
`regenerateRepositoryIndex` trace acquires the guard first, releases it
last on both the success and failure paths, and touches the guard nowhere
in between, so the guard covers the regeneration's listing, diffing,
fetching, building and publishing; however a `Sync` call first performs an
unguarded listing and diff pre-check, and when the diff shows no change it
returns without acquiring the guard — only when it proceeds to regeneration
does it block on the guard. -/
theorem lock_discipline (env : Env) (s : ServerState) :
    (∃ mid, (regenerateRepositoryIndex env s).1 =
        Event.lockAcquire :: (mid ++ [Event.lockRelease]) ∧
      Event.lockAcquire ∉ mid ∧ Event.lockRelease ∉ mid) ∧
    (∃ rest, (syncRepositoryIndex env s).1 = Event.listCall :: rest ∧
      (rest = [] ∨ rest = (regenerateRepositoryIndex env s).1)) :=
  ⟨regen_trace_shape env s, sync_trace_shape env s⟩

end ChartMuseum
